import Mathlib

/-!
Verification development for the credential lifecycle engine of the nango
repository: the OAuth flow dispatcher and callback handler
(`packages/server/lib/controllers/oauth.controller.ts`), the connection
service and encryption manager
(`packages/shared/lib/services/connection.service.ts`), shallowly embedded
in Lean.  JavaScript objects become structures, JS truthiness on optional
strings/numbers becomes explicit `truthy*` predicates, thrown errors become
`Except`, and database tables become lists of rows.  External collaborators
that are not part of the repository sources (the SHA-256 digest, the
authenticated cipher of `@nangohq/utils`, JSON serialization, the pbkdf2
key hash) are parameters of the embedding.
-/

namespace Nango

/-- JS truthiness of an optional string: `undefined`/`null` and the empty
string are falsy. -/
def truthyStr : Option String → Bool
  | some s => !s.isEmpty
  | none => false

/-- JS truthiness of an optional number: `undefined`/`null` and `0` are
falsy. -/
def truthyInt : Option Int → Bool
  | some n => n != 0
  | none => false

/-- Lookup in an association list modelling a JS object (`obj[key]`). -/
def lookupParam (m : List (String × String)) (k : String) : Option String :=
  (m.find? (fun p => p.1 == k)).map (·.2)

/-- JS object property assignment `obj[k] = v`: replaces any existing
binding of `k` and appends the new one. -/
def setParam (m : List (String × String)) (k v : String) : List (String × String) :=
  m.filter (fun p => p.1 != k) ++ [(k, v)]

/-- JS `delete obj[k]`. -/
def removeParam (m : List (String × String)) (k : String) : List (String × String) :=
  m.filter (fun p => p.1 != k)

/-- The `AuthModes` enum of `models/Auth.js` (the enum declaration is outside
`src/`; its members are exactly the ones the controllers dispatch on and the
spec lists in its section 3). -/
inductive AuthModes
  | OAuth1
  | OAuth2
  | OAuth2CC
  | Basic
  | ApiKey
  | AppStore
  | App
  | Custom
  | None
  deriving DecidableEq, Repr

/-- A raw provider token response, as consumed by
`ConnectionService.parseRawCredentials`.  Only the fields that function
reads are modelled; dates are integer timestamps
(`parseTokenExpirationDate`, which lives outside `src/`, is the identity on
already-numeric timestamps). -/
structure RawCredentials where
  access_token : Option String := none
  refresh_token : Option String := none
  token : Option String := none
  oauth_token : Option String := none
  oauth_token_secret : Option String := none
  expires_at : Option Int := none
  expires_in : Option Int := none
  deriving DecidableEq, Repr

/-- The `AuthCredentials` tagged union.  The variant declarations live in
`models/Auth.js` outside `src/`; the fields are exactly the ones the
service code in `src/` constructs (`parseRawCredentials`,
`getAppCredentials`, `getAppStoreCredentials`) and the spec's section 3
table lists.  Every parsed variant retains the raw response. -/
inductive AuthCredentials
  | OAuth2 (access_token : String) (refresh_token : Option String)
      (expires_at : Option Int) (raw : RawCredentials)
  | OAuth1 (oauth_token : String) (oauth_token_secret : String) (raw : RawCredentials)
  | OAuth2CC (token : String) (client_id : String) (client_secret : String)
      (expires_at : Option Int) (raw : RawCredentials)
  | App (access_token : String) (expires_at : Option Int) (raw : RawCredentials)
  | AppStore (access_token : String) (private_key : String)
      (expires_at : Option Int) (raw : RawCredentials)
  | ApiKey (apiKey : String)
  | Basic (username : String) (password : Option String)
  deriving DecidableEq, Repr

namespace AuthCredentials

/-- The `type` tag carried by each stored variant (`credentials.type`). -/
def typeOf : AuthCredentials → AuthModes
  | .OAuth2 .. => .OAuth2
  | .OAuth1 .. => .OAuth1
  | .OAuth2CC .. => .OAuth2CC
  | .App .. => .App
  | .AppStore .. => .AppStore
  | .ApiKey .. => .ApiKey
  | .Basic .. => .Basic

/-- JS property access `credentials.expires_at` after the service's cast to
`OAuth2Credentials`: variants without the field yield `undefined`. -/
def expiresAtField : AuthCredentials → Option Int
  | .OAuth2 _ _ e _ => e
  | .OAuth2CC _ _ _ e _ => e
  | .App _ e _ => e
  | .AppStore _ _ e _ => e
  | _ => none

/-- JS property access `credentials.refresh_token` after the cast to
`OAuth2Credentials`. -/
def refreshTokenField : AuthCredentials → Option String
  | .OAuth2 _ rt _ _ => rt
  | _ => none

end AuthCredentials

/-- `ConnectionService.parseRawCredentials` (connection.service.ts lines
640 to 711): table-driven parsing of a raw provider response into a typed
credential variant; throwing `NangoError` is modelled as `Except.error`.
`now` is the value of `Date.now()`. -/
def parseRawCredentials (now : Int) (raw : RawCredentials) (authMode : AuthModes) :
    Except String AuthCredentials :=
  match authMode with
  | .OAuth2 =>
    if !truthyStr raw.access_token then
      .error "incomplete_raw_credentials"
    else
      let expiresAt : Option Int :=
        if truthyInt raw.expires_at then raw.expires_at
        else if truthyInt raw.expires_in then some (now + raw.expires_in.getD 0 * 1000)
        else none
      .ok (.OAuth2 (raw.access_token.getD "") raw.refresh_token expiresAt raw)
  | .OAuth1 =>
    if !truthyStr raw.oauth_token || !truthyStr raw.oauth_token_secret then
      .error "incomplete_raw_credentials"
    else
      .ok (.OAuth1 (raw.oauth_token.getD "") (raw.oauth_token_secret.getD "") raw)
  | .OAuth2CC =>
    if !truthyStr raw.token then
      .error "incomplete_raw_credentials"
    else
      let expiresAt : Option Int :=
        if truthyInt raw.expires_at then raw.expires_at
        else if truthyInt raw.expires_in then some (now + raw.expires_in.getD 0 * 1000)
        else none
      .ok (.OAuth2CC (raw.token.getD "") "" "" expiresAt raw)
  | _ => .error "unknown_credentials_type"

/-- The authenticated cipher of `@nangohq/utils` (outside `src/`).
Modelled from the spec: `encrypt` produces ciphertext, IV and
authentication tag; `decrypt` verifies the tag and fails closed
(`Option.none`).  The envelope theorems take the cipher's round-trip
contract as a hypothesis. -/
structure Cipher where
  enc : String → String × String × String
  dec : String → String → String → Option String

/-- JSON serialization of a credentials object (`JSON.stringify` /
`JSON.parse`, external library functions).  Modelled from the spec: an
injective serializer with its inverse; the envelope theorems take the
round-trip contract as a hypothesis. -/
structure CredentialsCodec where
  stringify : AuthCredentials → String
  parse : String → AuthCredentials

/-- The `credentials` column of a stored connection: either the plain
credentials object (cleartext rows) or `{ encrypted_credentials: <cipher
text> }`. -/
inductive CredentialsField
  | plain (c : AuthCredentials)
  | enc (ciphertext : String)
  deriving DecidableEq, Repr

/-- A decrypted `Connection` as passed to
`EncryptionManager.encryptConnection` (only the fields the envelope and
upsert logic read are modelled; `connection_config` and `metadata` are
opaque payloads here). -/
structure Connection where
  connection_id : String
  provider_config_key : String
  environment_id : Nat
  config_id : Nat
  credentials : AuthCredentials
  connection_config : String
  metadata : Option String
  deriving DecidableEq, Repr

/-- A `StoredConnection`: the persisted shape, with the credential envelope
fields `credentials_iv` / `credentials_tag` (null when the row is stored in
clear). -/
structure StoredConnection where
  connection_id : String
  provider_config_key : String
  environment_id : Nat
  config_id : Nat
  credentials : CredentialsField
  credentials_iv : Option String
  credentials_tag : Option String
  connection_config : String
  metadata : Option String
  deriving DecidableEq, Repr

/-- The TypeScript cast `connection as StoredConnection` used when
encryption is disabled: the row is stored verbatim, with no IV/tag. -/
def Connection.asStored (c : Connection) : StoredConnection :=
  { connection_id := c.connection_id
    provider_config_key := c.provider_config_key
    environment_id := c.environment_id
    config_id := c.config_id
    credentials := .plain c.credentials
    credentials_iv := none
    credentials_tag := none
    connection_config := c.connection_config
    metadata := c.metadata }

/-- `EncryptionManager.shouldEncrypt`: true iff an encryption key is
configured and non-empty. -/
def shouldEncrypt (key : String) : Bool :=
  !key.isEmpty

/-- `EncryptionManager.encryptConnection` (connection.service.ts lines 1233
to 1248): when no key is configured the connection is stored verbatim;
otherwise the serialized credentials are encrypted as one unit and stored
as `{ encrypted_credentials }` plus IV and tag. -/
def encryptConnection (key : String) (cipher : Cipher) (codec : CredentialsCodec)
    (c : Connection) : StoredConnection :=
  if !shouldEncrypt key then
    c.asStored
  else
    let e := cipher.enc (codec.stringify c.credentials)
    { c.asStored with
        credentials := .enc e.1
        credentials_iv := some e.2.1
        credentials_tag := some e.2.2 }

/-- `EncryptionManager.decryptConnection` (connection.service.ts lines 1250
to 1263): a row whose `credentials_iv` or `credentials_tag` is null is
returned unchanged; otherwise the envelope is decrypted and parsed.  A
failed tag verification or a malformed envelope (no
`encrypted_credentials` payload) throws, modelled as `none`. -/
def decryptConnection (cipher : Cipher) (codec : CredentialsCodec)
    (row : StoredConnection) : Option StoredConnection :=
  match row.credentials_iv, row.credentials_tag with
  | some iv, some tag =>
    match row.credentials with
    | .enc ciphertext =>
      match cipher.dec ciphertext iv tag with
      | some payload => some { row with credentials := .plain (codec.parse payload) }
      | none => none
    | .plain _ => none
  | _, _ => some row

/-- The `AuthOperation` reported by an upsert.  The enum lives in
`models/Auth.js` outside `src/`; the spec (section 4.5) names the two
operations `created` and `updated`, which the service code calls
`CREATION` and `OVERRIDE`. -/
inductive AuthOperation
  | creation
  | override
  | unknown
  deriving DecidableEq, Repr

/-- A row of the `_nango_connections` table: a stored connection plus the
surrogate id and the soft-delete flag. -/
structure StoredRow where
  id : Nat
  deleted : Bool
  data : StoredConnection
  deriving DecidableEq, Repr

/-- Whether a row matches the natural key
`(connection_id, provider_config_key, environment_id)` and is live
(`deleted: false`) — the `where` clause of `checkIfConnectionExists`. -/
def rowMatches (cid pck : String) (envId : Nat) (r : StoredRow) : Bool :=
  r.data.connection_id == cid && r.data.provider_config_key == pck &&
    r.data.environment_id == envId && r.deleted == false

/-- `ConnectionService.checkIfConnectionExists` (connection.service.ts
lines 289 to 306): lookup by natural key excluding soft-deleted rows,
returning the first match's id and metadata. -/
def checkIfConnectionExists (db : List StoredRow) (cid pck : String) (envId : Nat) :
    Option (Nat × Option String) :=
  (db.find? (rowMatches cid pck envId)).map (fun r => (r.id, r.data.metadata))

/-- The surrogate id the database assigns to an inserted row (a fresh
value, modelled as one more than the maximum id in the table). -/
def freshId (db : List StoredRow) : Nat :=
  (db.map (·.id)).foldr max 0 + 1

/-- `ConnectionService.upsertConnection` (connection.service.ts lines 64 to
113): if a live row with the natural key exists, encrypt and update it in
place (operation `override`); otherwise encrypt and insert a new row
(operation `creation`).  `config_id` abstracts the
`configService.getIdByProviderConfigKey` lookup. -/
def upsertConnection (key : String) (cipher : Cipher) (codec : CredentialsCodec)
    (configId : Nat) (db : List StoredRow) (cid pck : String)
    (creds : AuthCredentials) (connConfig : String) (envId : Nat)
    (metadata : Option String) : List StoredRow × AuthOperation :=
  match checkIfConnectionExists db cid pck envId with
  | some (rowId, oldMetadata) =>
    let enc := encryptConnection key cipher codec
      { connection_id := cid
        provider_config_key := pck
        environment_id := envId
        config_id := configId
        credentials := creds
        connection_config := connConfig
        metadata := match metadata with
          | some m => some m
          | none => oldMetadata }
    let db1 := db.map (fun r =>
      if r.id == rowId && r.deleted == false then { r with data := enc } else r)
    (db1, .override)
  | none =>
    let enc := encryptConnection key cipher codec
      { connection_id := cid
        provider_config_key := pck
        environment_id := envId
        config_id := configId
        credentials := creds
        connection_config := connConfig
        metadata := metadata }
    (db ++ [{ id := freshId db, deleted := false, data := enc }], .creation)

/-- `isTokenExpired` of `shared/lib/utils/utils.ts`.  Modelled from the
spec: the token counts as expired when `expires_at` is within
`bufferInSecs` of `now` (section 4.6). -/
def isTokenExpired (expiresAt : Int) (bufferInSecs : Int) (now : Int) : Bool :=
  expiresAt - now ≤ bufferInSecs

/-- The fields of a provider template that the refresh decision reads.
`token_expiration_buffer` is in seconds; `none` or `0` (JS falsy) fall back
to the 15-minute default. -/
structure RefreshTemplate where
  auth_mode : AuthModes
  token_expiration_buffer : Option Int
  deriving DecidableEq, Repr

/-- `ConnectionService.shouldRefreshCredentials` (connection.service.ts
lines 1053 to 1072), as a pure function of the connection snapshot.
`shouldIntrospect` and `introspectedExpired` stand for the two
`providerClient` calls (provider-specific introspection, outside `src/`);
`now` is `Date.now()`. -/
def shouldRefreshCredentials (now : Int) (creds : AuthCredentials)
    (provider : String) (template : RefreshTemplate)
    (shouldIntrospect introspectedExpired instantRefresh : Bool) : Bool :=
  let refreshCondition := instantRefresh || (shouldIntrospect && introspectedExpired)
  let buffer := match template.token_expiration_buffer with
    | some b => if b == 0 then 15 * 60 else b
    | none => 15 * 60
  let tokenExpirationCondition := refreshCondition ||
    (match creds.expiresAtField with
      | some t => isTokenExpired t buffer now
      | none => false)
  if (template.auth_mode == .OAuth2 || creds.typeOf == .OAuth2) && provider != "facebook" then
    truthyStr creds.refreshTokenField && tokenExpirationCondition
  else
    tokenExpirationCondition

/-- The result of one `refreshCredentialsIfNeeded` call: the service
response, the connection as left in the store, and the number of
underlying provider refresh calls (`getNewCredentials` invocations) the
call performed. -/
structure RefreshOutcome where
  result : Except String AuthCredentials
  connAfter : AuthCredentials
  refreshCalls : Nat
  deriving Repr

/-- `ConnectionService.refreshCredentialsIfNeeded` (connection.service.ts
lines 713 to 807).  The decision `shouldRefreshCredentials` is computed
from the connection passed in (a snapshot read before the lock); when it
demands a refresh the caller acquires the per-connection lock, invokes
`getNewCredentials` (its outcome abstracted as `newCredentials`), persists
the result and releases the lock.  There is no re-check of the decision
after the lock is acquired. -/
def refreshCredentialsIfNeeded (now : Int) (creds : AuthCredentials)
    (provider : String) (template : RefreshTemplate)
    (shouldIntrospect introspectedExpired instantRefresh : Bool)
    (newCredentials : Except String AuthCredentials) : RefreshOutcome :=
  if shouldRefreshCredentials now creds provider template
      shouldIntrospect introspectedExpired instantRefresh then
    match newCredentials with
    | .ok nc => { result := .ok nc, connAfter := nc, refreshCalls := 1 }
    | .error e => { result := .error e, connAfter := creds, refreshCalls := 1 }
  else
    { result := .ok creds, connAfter := creds, refreshCalls := 0 }

/-- The state shared by concurrent credential readers of one connection:
the stored credentials and a counter of provider refresh calls. -/
structure SharedRefreshState where
  stored : AuthCredentials
  refreshCalls : Nat
  deriving Repr

/-- One concurrent `ensureFresh` caller, executed over the shared state.
The caller's refresh decision is computed from `snapshot` — the connection
it read before entering the lock, exactly as in the source, where
`shouldRefreshCredentials` runs on the `connection` argument before
`locking.tryAcquire`.  The lock serializes the critical sections, so a
concurrent execution is a sequence of these steps. -/
def refreshCaller (now : Int) (provider : String) (template : RefreshTemplate)
    (shouldIntrospect introspectedExpired instantRefresh : Bool)
    (newCredentials : Except String AuthCredentials)
    (st : SharedRefreshState) (snapshot : AuthCredentials) : SharedRefreshState :=
  let o := refreshCredentialsIfNeeded now snapshot provider template
    shouldIntrospect introspectedExpired instantRefresh newCredentials
  { stored := match o.result with
      | .ok _ => if o.refreshCalls > 0 then o.connAfter else st.stored
      | .error _ => st.stored
    refreshCalls := st.refreshCalls + o.refreshCalls }

/-- N concurrent `ensureFresh` calls for the same connection, serialized by
the per-connection refresh lock; `snapshots` are the connection states each
caller read before acquiring the lock (in lock-acquisition order). -/
def runConcurrentRefreshes (now : Int) (provider : String)
    (template : RefreshTemplate)
    (shouldIntrospect introspectedExpired instantRefresh : Bool)
    (newCredentials : Except String AuthCredentials)
    (snapshots : List AuthCredentials) (st : SharedRefreshState) : SharedRefreshState :=
  snapshots.foldl
    (refreshCaller now provider template shouldIntrospect introspectedExpired
      instantRefresh newCredentials) st

/-- The `_nango_db_config` checkpoint row. -/
structure DBConfig where
  encryption_key_hash : Option String
  encryption_complete : Bool
  deriving DecidableEq, Repr

/-- The database state the encryption migration walks.  The source walks
four tables (environments, connections, provider configs, environment
variables) with the same skip-if-already-enveloped rule per row; the model
carries the connections table, the claims' subject. -/
structure MigrationState where
  dbConfig : Option DBConfig
  connections : List StoredRow
  deriving DecidableEq, Repr

/-- The JS truthiness test `connection.credentials_iv &&
connection.credentials_tag` guarding the per-row skip. -/
def hasEnvelope (r : StoredRow) : Bool :=
  truthyStr r.data.credentials_iv && truthyStr r.data.credentials_tag

/-- Re-encryption of one stored row during the migration
(`this.encryptConnection(connection)` applied to a row read back from the
table).  `JSON.stringify` of a row that is already an envelope blob is
modelled as a tagged payload. -/
def encryptStoredRow (key : String) (cipher : Cipher) (codec : CredentialsCodec)
    (r : StoredRow) : StoredRow :=
  if !shouldEncrypt key then r
  else
    let payload := match r.data.credentials with
      | .plain c => codec.stringify c
      | .enc s => "encrypted_credentials:" ++ s
    let e := cipher.enc payload
    { r with data := { r.data with
        credentials := .enc e.1
        credentials_iv := some e.2.1
        credentials_tag := some e.2.2 } }

/-- `EncryptionManager.encryptDatabase` (connection.service.ts lines 1485
to 1542), restricted to the connections walk: every row already carrying a
truthy IV/tag pair is skipped, every other row is encrypted in place.
Returns the new state and the number of row updates performed. -/
def encryptDatabase (key : String) (cipher : Cipher) (codec : CredentialsCodec)
    (st : MigrationState) : MigrationState × Nat :=
  ({ st with connections := st.connections.map (fun r =>
      if hasEnvelope r then r else encryptStoredRow key cipher codec r) },
    st.connections.countP (fun r => !hasEnvelope r))

/-- `EncryptionManager.encryptDatabaseIfNeeded` (connection.service.ts
lines 1458 to 1483).  `hashKey` abstracts the pbkdf2 hash of the
encryption key (computed outside `src/`); throwing on a changed key is
modelled as `Except.error`.  Returns the new state and the number of row
updates performed. -/
def encryptDatabaseIfNeeded (key : String) (hashKey : String → String)
    (cipher : Cipher) (codec : CredentialsCodec) (st : MigrationState) :
    Except String (MigrationState × Nat) :=
  let previousEncryptionKeyHash : Option String := st.dbConfig.bind (·.encryption_key_hash)
  let encryptionKeyHash : Option String :=
    if !key.isEmpty then some (hashKey key) else none
  let isEncryptionKeyNew := st.dbConfig == none && !key.isEmpty
  let isEncryptionIncomplete :=
    st.dbConfig != none && previousEncryptionKeyHash == encryptionKeyHash &&
      (st.dbConfig.map (·.encryption_complete)).getD true == false
  if isEncryptionKeyNew || isEncryptionIncomplete then
    let st1 := if isEncryptionKeyNew then
        { st with dbConfig := some { encryption_key_hash := encryptionKeyHash,
                                     encryption_complete := false } }
      else st
    let p := encryptDatabase key cipher codec st1
    .ok ({ p.1 with dbConfig := some { encryption_key_hash := encryptionKeyHash,
                                       encryption_complete := true } }, p.2)
  else
    let isEncryptionKeyChanged :=
      previousEncryptionKeyHash != none && previousEncryptionKeyHash != encryptionKeyHash
    if isEncryptionKeyChanged then
      .error "You cannot edit or remove the encryption key once it has been set."
    else
      .ok (st, 0)

/-- An in-flight authorization `Session` (`OAuthSession`), as built by
`OAuthController.oauthRequest` (oauth.controller.ts lines 206 to 217). -/
structure OAuthSession where
  providerConfigKey : String
  provider : String
  connectionId : String
  callbackUrl : String
  authMode : AuthModes
  codeVerifier : String
  id : String
  connectionConfig : List (String × String)
  environmentId : Nat
  webSocketClientId : Option String
  requestTokenSecret : Option String := none
  deriving DecidableEq, Repr

/-- The session store backing `oauth-session.service.ts` (outside `src/`).
Modelled from the spec (section 4.1): a key-value store keyed by the
session id, with `findById` returning the session or nothing. -/
def SessionStore := List (String × OAuthSession)

/-- Modelled from the spec: `findById(id)` of the Session Store (section
4.1). -/
def SessionStore.findById (st : SessionStore) (id : String) : Option OAuthSession :=
  (List.find? (fun p => p.1 == id) st).map (·.2)

/-- Modelled from the spec: idempotent `delete(id)` of the Session Store
(section 4.1). -/
def SessionStore.deleteById (st : SessionStore) (id : String) : SessionStore :=
  List.filter (fun p => p.1 != id) st

/-- The query parameters `oauthCallback` reads. -/
structure CallbackQuery where
  state : Option String
  installation_id : Option String
  setup_action : Option String
  deriving DecidableEq, Repr

/-- The outcome of the callback handler up to protocol dispatch.  Token
exchange and connection upsert happen only inside the dispatched
protocol-specific handlers (`oauth2Callback` / `oauth1Callback`), so an
outcome other than `dispatchedOAuth2` / `dispatchedOAuth1` performs no
exchange and no upsert.  `unknownAuthMode` is reached after the session was
found and deleted. -/
inductive CallbackOutcome
  | redirectReferer
  | noStateError
  | notFound
  | dispatchedOAuth2 (session : OAuthSession)
  | dispatchedOAuth1 (session : OAuthSession)
  | unknownAuthMode (session : OAuthSession)
  deriving DecidableEq, Repr

/-- Whether the callback found (and therefore deleted) a session. -/
def CallbackOutcome.foundSession : CallbackOutcome → Bool
  | .dispatchedOAuth2 _ => true
  | .dispatchedOAuth1 _ => true
  | .unknownAuthMode _ => true
  | _ => false

/-- `OAuthController.oauthCallback` (oauth.controller.ts lines 918 to 998):
the app-install quirk redirect, the mandatory `state`, the session lookup
(`NotFound` is terminal), the immediate single-use delete, and the dispatch
on the session's auth mode. -/
def oauthCallback (q : CallbackQuery) (store : SessionStore) :
    SessionStore × CallbackOutcome :=
  if !truthyStr q.state && truthyStr q.installation_id && truthyStr q.setup_action then
    (store, .redirectReferer)
  else
    match q.state with
    | none => (store, .noStateError)
    | some s =>
      match store.findById s with
      | none => (store, .notFound)
      | some session =>
        let store1 := store.deleteById s
        if session.authMode == .OAuth2 || session.authMode == .Custom then
          (store1, .dispatchedOAuth2 session)
        else if session.authMode == .OAuth1 then
          (store1, .dispatchedOAuth1 session)
        else
          (store1, .unknownAuthMode session)

/-- The 6-bit groups of standard base64: three input bytes yield four
sextets; a trailing one- or two-byte group yields two or three sextets. -/
def b64Sextets : List Nat → List Nat
  | [] => []
  | [a] => [a / 4, a % 4 * 16]
  | [a, b] => [a / 4, a % 4 * 16 + b / 16, b % 16 * 4]
  | a :: b :: c :: rest =>
    [a / 4, a % 4 * 16 + b / 16, b % 16 * 4 + c / 64, c % 64] ++ b64Sextets rest

/-- The number of `=` padding characters standard base64 appends. -/
def b64PadCount : List Nat → Nat
  | [] => 0
  | [_] => 2
  | [_, _] => 1
  | _ :: _ :: _ :: rest => b64PadCount rest

/-- The standard base64 alphabet. -/
def stdAlphabet : List Char :=
  "ABCDEFGHIJKLMNOPQRSTUVWXYZabcdefghijklmnopqrstuvwxyz0123456789+/".toList

/-- The base64url alphabet: `-` and `_` in place of `+` and `/`. -/
def urlAlphabet : List Char :=
  "ABCDEFGHIJKLMNOPQRSTUVWXYZabcdefghijklmnopqrstuvwxyz0123456789-_".toList

/-- Base64 encoding of a byte list over a given alphabet, without padding.
Inputs are reduced mod 256 (bytes). -/
def b64EncodeWith (alpha : List Char) (bytes : List Nat) : List Char :=
  (b64Sextets (bytes.map (· % 256))).map (fun i => alpha.getD i 'A')

/-- `Buffer.digest('base64')`: standard padded base64. -/
def base64Std (bytes : List Nat) : List Char :=
  b64EncodeWith stdAlphabet bytes ++ List.replicate (b64PadCount bytes) '='

/-- base64url without padding, the encoding the spec's PKCE invariant names
(RFC 7636 `BASE64URL-ENCODE`). -/
def base64UrlNoPad (bytes : List Nat) : List Char :=
  b64EncodeWith urlAlphabet bytes

/-- The character substitution of `.replace(/\+/g, '-')`. -/
def substPlusChar (c : Char) : Char :=
  if c == '+' then '-' else c

/-- The character substitution of `.replace(/\//g, '_')`. -/
def substSlashChar (c : Char) : Char :=
  if c == '/' then '_' else c

/-- `.replace(/\+/g, '-')`. -/
def substPlus (cs : List Char) : List Char :=
  cs.map substPlusChar

/-- `.replace(/\//g, '_')`. -/
def substSlash (cs : List Char) : List Char :=
  cs.map substSlashChar

/-- `.replace(/=+$/, '')`: strip the trailing run of `=` characters. -/
def stripTrailingEq (cs : List Char) : List Char :=
  (cs.reverse.dropWhile (fun c => c == '=')).reverse

/-- The `code_challenge` computation of `OAuthController.oauth2Request`
(oauth.controller.ts lines 609 to 617):
`createHash('sha256').update(verifier).digest('base64')` followed by the
three string replacements.  `hash` abstracts the SHA-256 digest (an
external crypto primitive), mapping the verifier to its digest bytes. -/
def codeChallenge (hash : String → List Nat) (verifier : String) : String :=
  String.mk (stripTrailingEq (substSlash (substPlus (base64Std (hash verifier)))))

/-- The `token_params` block of an OAuth2 template. -/
structure TokenParams where
  grant_type : Option String
  deriving DecidableEq, Repr

/-- The provider template fields the flow dispatcher reads.  The source's
`token_url` may be a per-mode map, resolved by
`typeof token_url === 'string' ? token_url : token_url[OAuth2]`; the model
stores the resolved value. -/
structure ProviderTemplate where
  auth_mode : AuthModes
  authorization_url : String
  token_url : String
  authorization_params : List (String × String)
  token_params : Option TokenParams
  disable_pkce : Bool
  scope_separator : Option String
  authorization_url_replacements : List (String × String)
  deriving DecidableEq, Repr

/-- The provider config fields the flow dispatcher reads.  The credential
columns are nullable (`config?.oauth_client_id == null` guards). -/
structure ProviderConfigModel where
  provider : String
  oauth_client_id : Option String
  oauth_client_secret : Option String
  oauth_scopes : Option String
  app_link : Option String
  deriving DecidableEq, Repr

/-- Outcome of the private `oauth2Request` step.  `redirect` carries the
query parameters of the authorization URL the user is redirected to,
together with the template's literal URL replacements (applied to the
serialized URL string by the source); the Session has been persisted
exactly on this branch. -/
inductive OAuth2RequestResult
  | errInvalidConnectionConfig (url : String)
  | errUnknownGrantType (g : String)
  | redirect (urlParams : List (String × String)) (replacements : List (String × String))
  deriving DecidableEq, Repr

/-- The merged authorization parameters of `oauth2Request`: template
`authorization_params`, then the PKCE pair unless disabled, then the slack
`user_scope`, then the request-supplied parameters (request wins; keys
explicitly set to undefined are removed, not defaulted). -/
def mergedAuthParams (hash : String → List Nat) (template : ProviderTemplate)
    (providerConfig : ProviderConfigModel) (session : OAuthSession)
    (authorizationParams : List (String × Option String))
    (userScope : Option String) : List (String × String) :=
  let a0 := template.authorization_params
  let a1 :=
    if !template.disable_pkce then
      setParam (setParam a0 "code_challenge" (codeChallenge hash session.codeVerifier))
        "code_challenge_method" "S256"
    else a0
  let a2 :=
    if providerConfig.provider == "slack" && truthyStr userScope then
      setParam a1 "user_scope" (userScope.getD "")
    else a1
  authorizationParams.foldl
    (fun m kv => match kv.2 with
      | some v => setParam m kv.1 v
      | none => removeParam m kv.1) a2

/-- The joined `scope` value of the authorization URL. -/
def joinedScope (template : ProviderTemplate)
    (providerConfig : ProviderConfigModel) : String :=
  match providerConfig.oauth_scopes with
  | some s =>
    if s.isEmpty then ""
    else
      let sep := match template.scope_separator with
        | some t => if t.isEmpty then " " else t
        | none => " "
      String.intercalate sep (s.splitOn ",")
  | none => ""

/-- The query parameters of the authorization URL built by `authorizeURL`:
`redirect_uri`, the joined `scope`, `state = session.id`, spread with the
merged auth params (which win). -/
def authorizeUrlParams (hash : String → List Nat) (template : ProviderTemplate)
    (providerConfig : ProviderConfigModel) (session : OAuthSession)
    (authorizationParams : List (String × Option String))
    (callbackUrl : String) (userScope : Option String) : List (String × String) :=
  (mergedAuthParams hash template providerConfig session authorizationParams
      userScope).foldl (fun m kv => setParam m kv.1 kv.2)
    [("redirect_uri", callbackUrl), ("scope", joinedScope template providerConfig),
      ("state", session.id)]

/-- `OAuthController.oauth2Request` (oauth.controller.ts lines 534 to 732).
`missesCheck` abstracts `missesInterpolationParam` (a server utility
outside `src/`: whether the URL template has a placeholder the connection
config cannot satisfy); `hash` abstracts the SHA-256 digest. -/
def oauth2Request (missesCheck : String → List (String × String) → Bool)
    (hash : String → List Nat) (template : ProviderTemplate)
    (providerConfig : ProviderConfigModel) (session : OAuthSession)
    (connectionConfig : List (String × String))
    (authorizationParams : List (String × Option String))
    (callbackUrl : String) (userScope : Option String) : OAuth2RequestResult :=
  if missesCheck template.authorization_url connectionConfig then
    .errInvalidConnectionConfig template.authorization_url
  else if missesCheck template.token_url connectionConfig then
    .errInvalidConnectionConfig template.token_url
  else if template.token_params == none
      || (template.token_params.bind (·.grant_type)) == none
      || (template.token_params.bind (·.grant_type)) == some "authorization_code" then
    .redirect
      (authorizeUrlParams hash template providerConfig session authorizationParams
        callbackUrl userScope)
      template.authorization_url_replacements
  else
    .errUnknownGrantType ((template.token_params.bind (·.grant_type)).getD "")

/-- Outcome of the private `appRequest` step; the Session has been
persisted exactly on the `redirect` branch. -/
inductive AppRequestResult
  | errInvalidConnectionConfig (url : String)
  | redirect (url : String)
  deriving DecidableEq, Repr

/-- `OAuthController.appRequest` (oauth.controller.ts lines 734 to 823).
`interpolate` abstracts `interpolateStringFromObject`. -/
def appRequest (missesCheck : String → List (String × String) → Bool)
    (interpolate : String → List (String × String) → String)
    (template : ProviderTemplate) (providerConfig : ProviderConfigModel)
    (session : OAuthSession)
    (authorizationParams : List (String × Option String)) : AppRequestResult :=
  let connectionConfig :=
    (authorizationParams.filterMap (fun kv => kv.2.map (fun v => (kv.1, v)))) ++
      (match providerConfig.app_link with
        | some l => [("appPublicLink", l)]
        | none => [])
  if missesCheck template.authorization_url connectionConfig then
    .errInvalidConnectionConfig template.authorization_url
  else
    .redirect (interpolate template.authorization_url connectionConfig ++
      "?state=" ++ session.id)

/-- Outcome of the private `oauth1Request` step: the provider's
request-token call either fails (`TokenError`, no Session persisted) or
succeeds, after which the Session — now carrying the request token secret —
is persisted and the user is redirected. -/
inductive OAuth1RequestResult
  | errToken
  | redirect
  deriving DecidableEq, Repr

/-- `OAuthController.oauth1Request` (oauth.controller.ts lines 829 to 916);
`requestTokenSecret` abstracts the provider's request-token response
(`none` models a thrown `getOAuthRequestToken`). -/
def oauth1Request (requestTokenSecret : Option String) : OAuth1RequestResult :=
  match requestTokenSecret with
  | none => .errToken
  | some _ => .redirect

/-- The inputs `OAuthController.oauthRequest` reads: request fields, the
results of the external lookups (HMAC verification, provider config and
template), and the generated random values. -/
structure OAuthRequestInput where
  connection_id : Option String
  providerConfigKey : Option String
  hmacEnabled : Bool
  hmac : Option String
  hmacValid : Bool
  config : Option ProviderConfigModel
  template : Option ProviderTemplate
  userScope : Option String
  connectionConfig : List (String × String)
  authorizationParams : List (String × Option String)
  overrideClientId : Option String
  overrideClientSecret : Option String
  callbackUrl : String
  sessionId : String
  codeVerifier : String
  oauth1RequestTokenSecret : Option String
  deriving Repr

/-- Outcome of `beginAuthorization` (`oauthRequest`). -/
inductive OAuthRequestOutcome
  | errMissingConnectionId
  | errMissingProviderConfigKey
  | errMissingHmac
  | errInvalidHmac
  | errUnknownProviderConfig
  | errUnknownProviderTemplate
  | errInvalidProviderConfig
  | oauth2Flow (r : OAuth2RequestResult)
  | appFlow (r : AppRequestResult)
  | oauth1Flow (r : OAuth1RequestResult)
  | errUnknownAuthMode
  deriving DecidableEq, Repr

/-- Whether a Session was persisted on this outcome: exactly on the
successful redirect branches of the three interactive flows. -/
def OAuthRequestOutcome.sessionPersisted : OAuthRequestOutcome → Bool
  | .oauth2Flow (.redirect _ _) => true
  | .appFlow (.redirect _) => true
  | .oauth1Flow .redirect => true
  | _ => false

/-- The request-supplied credential and scope overrides applied to the
loaded provider config (oauth.controller.ts lines 227 to 248). -/
def applyOverrides (input : OAuthRequestInput) (config0 : ProviderConfigModel) :
    ProviderConfigModel :=
  let config1 :=
    if truthyStr input.overrideClientId then
      { config0 with oauth_client_id := input.overrideClientId }
    else config0
  let config2 :=
    if truthyStr input.overrideClientSecret then
      { config1 with oauth_client_secret := input.overrideClientSecret }
    else config1
  if truthyStr (lookupParam input.connectionConfig "oauth_scopes_override") then
    { config2 with
        oauth_scopes := lookupParam input.connectionConfig "oauth_scopes_override" }
  else config2

/-- The connection config stored in the Session: the request params plus
`user_scope` and the applied credential overrides (oauth.controller.ts
lines 219 to 244). -/
def sessionConfigWithOverrides (input : OAuthRequestInput) : List (String × String) :=
  let c0 :=
    if truthyStr input.userScope then
      setParam input.connectionConfig "user_scope" (input.userScope.getD "")
    else input.connectionConfig
  let c1 :=
    if truthyStr input.overrideClientId then
      setParam c0 "oauth_client_id_override" (input.overrideClientId.getD "")
    else c0
  if truthyStr input.overrideClientSecret then
    setParam c1 "oauth_client_secret_override" (input.overrideClientSecret.getD "")
  else c1

/-- `OAuthController.oauthRequest` (oauth.controller.ts lines 62 to 322):
input validation, HMAC gate, config and template lookups, request-supplied
credential and scope overrides, the provider-config completeness check
(which exempts `auth_mode === App`), and the dispatch on `auth_mode`. -/
def oauthRequest (missesCheck : String → List (String × String) → Bool)
    (interpolate : String → List (String × String) → String)
    (hash : String → List Nat) (input : OAuthRequestInput) : OAuthRequestOutcome :=
  if input.connection_id == none then .errMissingConnectionId
  else if input.providerConfigKey == none then .errMissingProviderConfigKey
  else if input.hmacEnabled && !truthyStr input.hmac then .errMissingHmac
  else if input.hmacEnabled && !input.hmacValid then .errInvalidHmac
  else
    match input.config with
    | none => .errUnknownProviderConfig
    | some config0 =>
      match input.template with
      | none => .errUnknownProviderTemplate
      | some template =>
        let config3 := applyOverrides input config0
        let session : OAuthSession :=
          { providerConfigKey := input.providerConfigKey.getD ""
            provider := config0.provider
            connectionId := input.connection_id.getD ""
            callbackUrl := input.callbackUrl
            authMode := template.auth_mode
            codeVerifier := input.codeVerifier
            id := input.sessionId
            connectionConfig := sessionConfigWithOverrides input
            environmentId := 0
            webSocketClientId := none }
        if template.auth_mode != .App &&
            (config3.oauth_client_id == none || config3.oauth_client_secret == none ||
              config3.oauth_scopes == none) then
          .errInvalidProviderConfig
        else if template.auth_mode == .OAuth2 then
          .oauth2Flow (oauth2Request missesCheck hash template config3 session
            input.connectionConfig input.authorizationParams input.callbackUrl
            input.userScope)
        else if template.auth_mode == .App || template.auth_mode == .Custom then
          .appFlow (appRequest missesCheck interpolate template config3 session
            input.authorizationParams)
        else if template.auth_mode == .OAuth1 then
          .oauth1Flow (oauth1Request input.oauth1RequestTokenSecret)
        else
          .errUnknownAuthMode

/-- Number of live rows carrying a given natural key. -/
def liveMatchCount (db : List StoredRow) (cid pck : String) (envId : Nat) : Nat :=
  db.countP (rowMatches cid pck envId)

/-- The field read `credentials.client_id` of a stored variant. -/
def AuthCredentials.clientIdField : AuthCredentials → Option String
  | .OAuth2CC _ cid _ _ _ => some cid
  | _ => none

/-- The claim's per-variant requirement: every required field of the table
in spec section 3 is present and non-empty (OAuth2: access_token; OAuth1:
oauth_token and oauth_token_secret; OAuth2ClientCredentials: token,
client_id and client_secret). -/
def requiredFieldsNonEmpty : AuthCredentials → Bool
  | .OAuth2 a _ _ _ => !a.isEmpty
  | .OAuth1 t ts _ => !t.isEmpty && !ts.isEmpty
  | .OAuth2CC t cid cs _ _ => !t.isEmpty && !cid.isEmpty && !cs.isEmpty
  | _ => true

/-- The fields `parseRawCredentials` actually validates: OAuth2 validates
`access_token`, OAuth1 both tokens, OAuth2ClientCredentials only `token`
(its `client_id` and `client_secret` are initialized empty for the caller
to fill). -/
def validatedFieldsNonEmpty : AuthCredentials → Bool
  | .OAuth2 a _ _ _ => !a.isEmpty
  | .OAuth1 t ts _ => !t.isEmpty && !ts.isEmpty
  | .OAuth2CC t _ _ _ _ => !t.isEmpty
  | _ => true

/-- A trivial cipher instance used by concrete witnesses. -/
def idCipher : Cipher :=
  { enc := fun s => (s, "iv", "tag")
    dec := fun c _ _ => some c }

/-- A trivial serializer instance used by concrete witnesses: correct on
the single credentials value it is pinned to. -/
def constCodec (c : AuthCredentials) : CredentialsCodec :=
  { stringify := fun _ => "payload"
    parse := fun _ => c }

/-- A sample credentials value for witnesses. -/
def sampleCreds : AuthCredentials := .ApiKey "a-key"

/-- A sample decrypted connection for witnesses. -/
def sampleConnection : Connection :=
  { connection_id := "c1"
    provider_config_key := "gh"
    environment_id := 1
    config_id := 7
    credentials := sampleCreds
    connection_config := "cc"
    metadata := none }

/-- C10: for every stored connection row whose `credentials_iv` or
`credentials_tag` is null, `decryptConnection` returns the row unchanged
without attempting any decryption (the result does not depend on the
cipher or the serializer), so rows persisted before encryption was enabled
remain readable. -/
theorem decryptConnection_returns_unenveloped_rows_unchanged
    (cipher : Cipher) (codec : CredentialsCodec) (row : StoredConnection)
    (h : row.credentials_iv = none ∨ row.credentials_tag = none) :
    decryptConnection cipher codec row = some row := by
  unfold decryptConnection
  rcases h with h | h
  · rw [h]
  · rw [h]
    cases row.credentials_iv <;> rfl

/-- Witness for C10 at a concrete cleartext row. -/
theorem decryptConnection_returns_unenveloped_rows_unchanged_witness :
    decryptConnection idCipher (constCodec sampleCreds) sampleConnection.asStored
      = some sampleConnection.asStored :=
  decryptConnection_returns_unenveloped_rows_unchanged idCipher (constCodec sampleCreds)
    sampleConnection.asStored (Or.inl rfl)

/-- C6: the credential envelope round-trips.  When an encryption key is
configured, decrypting an encrypted connection yields credentials equal to
the input credentials (given the cipher's and the serializer's round-trip
contracts at that value); when no key is configured the connection is
stored verbatim and read back verbatim. -/
theorem encryptConnection_decryptConnection_roundtrip
    (key : String) (cipher : Cipher) (codec : CredentialsCodec) (conn : Connection)
    (hcodec : codec.parse (codec.stringify conn.credentials) = conn.credentials)
    (hcipher : cipher.dec (cipher.enc (codec.stringify conn.credentials)).1
        (cipher.enc (codec.stringify conn.credentials)).2.1
        (cipher.enc (codec.stringify conn.credentials)).2.2
        = some (codec.stringify conn.credentials)) :
    (key.isEmpty = false →
      (decryptConnection cipher codec (encryptConnection key cipher codec conn)).map
          (·.credentials) = some (.plain conn.credentials))
    ∧ (key.isEmpty = true →
      encryptConnection key cipher codec conn = conn.asStored
      ∧ decryptConnection cipher codec conn.asStored = some conn.asStored) := by
  constructor
  · intro hk
    have hse : shouldEncrypt key = true := by simp [shouldEncrypt, hk]
    simp only [encryptConnection, hse, Bool.not_true, Bool.false_eq_true, if_false,
      decryptConnection]
    rw [hcipher]
    simp [hcodec]
  · intro hk
    have hse : shouldEncrypt key = false := by simp [shouldEncrypt, hk]
    constructor
    · simp [encryptConnection, hse]
    · exact decryptConnection_returns_unenveloped_rows_unchanged cipher codec
        conn.asStored (Or.inl rfl)

/-- Witness for C6 at a concrete connection, enabled and disabled. -/
theorem encryptConnection_decryptConnection_roundtrip_witness :
    (decryptConnection idCipher (constCodec sampleCreds)
        (encryptConnection "secret-key" idCipher (constCodec sampleCreds)
          sampleConnection)).map (·.credentials) = some (.plain sampleCreds)
    ∧ encryptConnection "" idCipher (constCodec sampleCreds) sampleConnection
        = sampleConnection.asStored :=
  ⟨(encryptConnection_decryptConnection_roundtrip "secret-key" idCipher
      (constCodec sampleCreds) sampleConnection rfl rfl).1 rfl,
    ((encryptConnection_decryptConnection_roundtrip "" idCipher
      (constCodec sampleCreds) sampleConnection rfl rfl).2 rfl).1⟩

/-- C4: for a plain-OAuth2 connection whose provider is not facebook,
`refreshCredentialsIfNeeded` performs a provider refresh only if the
stored credentials carry a refresh token; without one it returns the
stored (possibly expired) credentials unchanged with a success result and
performs zero provider refresh calls, even under forced refresh. -/
theorem refreshCredentialsIfNeeded_requires_refresh_token
    (now : Int) (creds : AuthCredentials) (provider : String)
    (template : RefreshTemplate)
    (shouldIntrospect introspectedExpired instantRefresh : Bool)
    (newCredentials : Except String AuthCredentials)
    (htype : creds.typeOf = .OAuth2) (hprov : provider ≠ "facebook") :
    (truthyStr creds.refreshTokenField = false →
      refreshCredentialsIfNeeded now creds provider template shouldIntrospect
          introspectedExpired instantRefresh newCredentials
        = { result := .ok creds, connAfter := creds, refreshCalls := 0 })
    ∧ ((refreshCredentialsIfNeeded now creds provider template shouldIntrospect
          introspectedExpired instantRefresh newCredentials).refreshCalls > 0 →
      truthyStr creds.refreshTokenField = true) := by
  constructor
  · intro hrt
    have hno : shouldRefreshCredentials now creds provider template
        shouldIntrospect introspectedExpired instantRefresh = false := by
      simp [shouldRefreshCredentials, htype, hprov, hrt]
    simp [refreshCredentialsIfNeeded, hno]
  · intro hcalls
    by_contra hrt
    have hrt' : truthyStr creds.refreshTokenField = false := by
      cases h : truthyStr creds.refreshTokenField
      · rfl
      · exact absurd h hrt
    have hno : shouldRefreshCredentials now creds provider template
        shouldIntrospect introspectedExpired instantRefresh = false := by
      simp [shouldRefreshCredentials, htype, hprov, hrt']
    simp [refreshCredentialsIfNeeded, hno] at hcalls

/-- Witness for C4: an expired plain-OAuth2 credential without a refresh
token, read under forced refresh, is returned unchanged with success. -/
theorem refreshCredentialsIfNeeded_requires_refresh_token_witness :
    refreshCredentialsIfNeeded 1000000 (.OAuth2 "expired-token" none (some 0) {})
        "github" { auth_mode := .OAuth2, token_expiration_buffer := none }
        false false true (.ok (.OAuth2 "fresh" none (some 2000000) {}))
      = { result := .ok (.OAuth2 "expired-token" none (some 0) {})
          connAfter := .OAuth2 "expired-token" none (some 0) {}
          refreshCalls := 0 } :=
  (refreshCredentialsIfNeeded_requires_refresh_token 1000000
    (.OAuth2 "expired-token" none (some 0) {}) "github"
    { auth_mode := .OAuth2, token_expiration_buffer := none }
    false false true (.ok (.OAuth2 "fresh" none (some 2000000) {}))
    rfl (by decide)).1 rfl

/-- One `refreshCredentialsIfNeeded` call performs exactly one provider
refresh call when its pre-lock decision demanded one, and none otherwise. -/
theorem refreshCredentialsIfNeeded_calls (now : Int) (creds : AuthCredentials)
    (provider : String) (template : RefreshTemplate) (si ie ir : Bool)
    (newC : Except String AuthCredentials) :
    (refreshCredentialsIfNeeded now creds provider template si ie ir newC).refreshCalls
      = if shouldRefreshCredentials now creds provider template si ie ir then 1 else 0 := by
  by_cases h : shouldRefreshCredentials now creds provider template si ie ir
  · cases newC <;> simp [refreshCredentialsIfNeeded, h]
  · simp [refreshCredentialsIfNeeded, h]

/-- The refresh-call counter after one serialized caller. -/
theorem refreshCaller_calls (now : Int) (provider : String)
    (template : RefreshTemplate) (si ie ir : Bool)
    (newC : Except String AuthCredentials) (st : SharedRefreshState)
    (snapshot : AuthCredentials) :
    (refreshCaller now provider template si ie ir newC st snapshot).refreshCalls
      = st.refreshCalls +
          (if shouldRefreshCredentials now snapshot provider template si ie ir
            then 1 else 0) := by
  show st.refreshCalls +
      (refreshCredentialsIfNeeded now snapshot provider template si ie ir newC).refreshCalls = _
  rw [refreshCredentialsIfNeeded_calls]

/-- C1 counterexample: two concurrent credential reads of the same expired
connection (both snapshots read before either caller acquired the refresh
lock) perform two underlying provider refresh calls, not at most one — the
refresh decision is not re-evaluated after lock acquisition. -/
theorem concurrent_refreshes_exceed_one :
    (runConcurrentRefreshes 1000000 "github"
        { auth_mode := .OAuth2, token_expiration_buffer := none } false false false
        (.ok (.OAuth2 "fresh" (some "rt") (some 2000000000) {}))
        [.OAuth2 "expired" (some "rt") (some 0) {},
          .OAuth2 "expired" (some "rt") (some 0) {}]
        { stored := .OAuth2 "expired" (some "rt") (some 0) {},
          refreshCalls := 0 }).refreshCalls = 2
    ∧ ¬((runConcurrentRefreshes 1000000 "github"
        { auth_mode := .OAuth2, token_expiration_buffer := none } false false false
        (.ok (.OAuth2 "fresh" (some "rt") (some 2000000000) {}))
        [.OAuth2 "expired" (some "rt") (some 0) {},
          .OAuth2 "expired" (some "rt") (some 0) {}]
        { stored := .OAuth2 "expired" (some "rt") (some 0) {},
          refreshCalls := 0 }).refreshCalls ≤ 1) := by
  constructor
  · rfl
  · decide

/-- C1 amended: the per-connection lock serializes refreshes, but each
caller's refresh decision is computed from the connection snapshot it read
before acquiring the lock and is not re-evaluated afterwards; hence N
concurrent `ensureFresh` calls perform exactly one provider refresh call
per caller whose snapshot demanded one — up to N calls in total for N
callers that all read expired credentials, not at most one. -/
theorem runConcurrentRefreshes_calls_count
    (now : Int) (provider : String) (template : RefreshTemplate)
    (si ie ir : Bool) (newC : Except String AuthCredentials)
    (snapshots : List AuthCredentials) (st : SharedRefreshState) :
    (runConcurrentRefreshes now provider template si ie ir newC snapshots st).refreshCalls
      = st.refreshCalls + snapshots.countP
          (fun c => shouldRefreshCredentials now c provider template si ie ir) := by
  induction snapshots generalizing st with
  | nil => simp [runConcurrentRefreshes]
  | cons c cs ih =>
    show (runConcurrentRefreshes now provider template si ie ir newC cs
        (refreshCaller now provider template si ie ir newC st c)).refreshCalls = _
    rw [ih, refreshCaller_calls, List.countP_cons]
    by_cases h : shouldRefreshCredentials now c provider template si ie ir
    · simp only [h, if_true]
      omega
    · simp only [h, if_false]
      omega

/-- A deleted session id is no longer found. -/
theorem findById_deleteById (st : SessionStore) (s : String) :
    (st.deleteById s).findById s = none := by
  unfold SessionStore.findById SessionStore.deleteById
  have h : List.find? (fun p => p.1 == s) (List.filter (fun p => p.1 != s) st) = none := by
    rw [List.find?_eq_none]
    intro p hp
    have := List.of_mem_filter hp
    simpa using this
  rw [h]
  rfl

/-- When the callback found a session, the query carried a state and the
resulting store is the input store with that state deleted. -/
theorem oauthCallback_found_store (q : CallbackQuery) (store : SessionStore)
    (hfound : ((oauthCallback q store).2).foundSession = true) :
    ∃ s, q.state = some s ∧ (oauthCallback q store).1 = store.deleteById s := by
  by_cases hb : (!truthyStr q.state && truthyStr q.installation_id
      && truthyStr q.setup_action) = true
  · simp [oauthCallback, hb, CallbackOutcome.foundSession] at hfound
  · have hb' : (!truthyStr q.state && truthyStr q.installation_id
        && truthyStr q.setup_action) = false := by
      cases h : (!truthyStr q.state && truthyStr q.installation_id
          && truthyStr q.setup_action)
      · rfl
      · exact absurd h hb
    cases hq : q.state with
    | none =>
      rw [hq] at hb'
      simp [oauthCallback, hb', hq, CallbackOutcome.foundSession] at hfound
    | some s =>
      rw [hq] at hb'
      refine ⟨s, rfl, ?_⟩
      cases hfind : store.findById s with
      | none => simp [oauthCallback, hb', hq, hfind, CallbackOutcome.foundSession] at hfound
      | some session =>
        simp only [oauthCallback, hb', hq, hfind, Bool.false_eq_true, if_false]
        split
        · rfl
        · split
          · rfl
          · rfl

/-- C2: sessions are single-use.  Once `oauthCallback` has processed a
callback carrying a state and found its session, the session is deleted
before any protocol dispatch, so a second callback carrying the same state
finds no session (`notFound`) and reaches no protocol handler — hence
performs no token exchange and no connection upsert (those happen only
inside the dispatched handlers). -/
theorem oauthCallback_session_single_use
    (q q2 : CallbackQuery) (store : SessionStore) (s : String)
    (hs : q.state = some s) (hne : s ≠ "") (hs2 : q2.state = some s)
    (hfound : ((oauthCallback q store).2).foundSession = true) :
    oauthCallback q2 (oauthCallback q store).1
      = ((oauthCallback q store).1, .notFound) := by
  obtain ⟨t, ht, hst⟩ := oauthCallback_found_store q store hfound
  rw [hs] at ht
  obtain rfl : s = t := Option.some.inj ht
  rw [hst]
  have hemp : s.isEmpty = false := by
    cases h : s.isEmpty
    · rfl
    · exact absurd ((String.isEmpty_iff s).mp h) hne
  have hts : (!truthyStr (some s) && truthyStr q2.installation_id
      && truthyStr q2.setup_action) = false := by
    simp [truthyStr, hemp]
  simp only [oauthCallback, hs2, hts, Bool.false_eq_true, if_false,
    findById_deleteById]

/-- Witness for C2: replaying a concrete callback after it dispatched. -/
theorem oauthCallback_session_single_use_witness :
    oauthCallback { state := some "sid", installation_id := none, setup_action := none }
        (oauthCallback { state := some "sid", installation_id := none, setup_action := none }
          [("sid", { providerConfigKey := "gh", provider := "github", connectionId := "c1"
                     callbackUrl := "cb", authMode := .OAuth2, codeVerifier := "v"
                     id := "sid", connectionConfig := [], environmentId := 1
                     webSocketClientId := none })]).1
      = ((oauthCallback { state := some "sid", installation_id := none, setup_action := none }
          [("sid", { providerConfigKey := "gh", provider := "github", connectionId := "c1"
                     callbackUrl := "cb", authMode := .OAuth2, codeVerifier := "v"
                     id := "sid", connectionConfig := [], environmentId := 1
                     webSocketClientId := none })]).1, .notFound) :=
  oauthCallback_session_single_use
    { state := some "sid", installation_id := none, setup_action := none }
    { state := some "sid", installation_id := none, setup_action := none }
    [("sid", { providerConfigKey := "gh", provider := "github", connectionId := "c1"
               callbackUrl := "cb", authMode := .OAuth2, codeVerifier := "v"
               id := "sid", connectionConfig := [], environmentId := 1
               webSocketClientId := none })]
    "sid" rfl (by decide) rfl (by decide)

/-- C7 counterexample: parsing a client-credentials response containing
only a token succeeds, yet the returned variant's `client_id` and
`client_secret` are the empty string — the claim's requirement that all
required fields of the OAuth2ClientCredentials variant be present and
non-empty does not hold for the value `parseRawCredentials` returns. -/
theorem parseRawCredentials_oauth2cc_empty_client_fields :
    parseRawCredentials 0 { token := some "tok" } .OAuth2CC
      = .ok (.OAuth2CC "tok" "" "" none { token := some "tok" })
    ∧ requiredFieldsNonEmpty (.OAuth2CC "tok" "" "" none { token := some "tok" })
        = false := by
  constructor
  · rfl
  · rfl

/-- C7 amended: `parseRawCredentials` either fails atomically (`Except`
returns no value at all on error) or returns a variant tagged with the
requested mode whose validated fields are present and non-empty — OAuth2:
`access_token`; OAuth1: `oauth_token` and `oauth_token_secret`;
OAuth2ClientCredentials: `token` only, with `client_id` and
`client_secret` initialized empty for the caller to fill; and every other
auth mode fails with a parse error. -/
theorem parseRawCredentials_validates (now : Int) (raw : RawCredentials) :
    (∀ c, parseRawCredentials now raw .OAuth2 = .ok c →
        validatedFieldsNonEmpty c = true ∧ c.typeOf = .OAuth2)
    ∧ (∀ c, parseRawCredentials now raw .OAuth1 = .ok c →
        validatedFieldsNonEmpty c = true ∧ c.typeOf = .OAuth1)
    ∧ (∀ c, parseRawCredentials now raw .OAuth2CC = .ok c →
        validatedFieldsNonEmpty c = true ∧ c.typeOf = .OAuth2CC
          ∧ c.clientIdField = some "")
    ∧ (∀ mode, mode ≠ .OAuth2 → mode ≠ .OAuth1 → mode ≠ .OAuth2CC →
        parseRawCredentials now raw mode = .error "unknown_credentials_type") := by
  refine ⟨?_, ?_, ?_, ?_⟩
  · intro c hc
    unfold parseRawCredentials at hc
    cases hat : raw.access_token with
    | none => rw [hat] at hc; exact absurd hc (by simp [truthyStr])
    | some a =>
      rw [hat] at hc
      cases hemp : a.isEmpty
      · simp only [truthyStr, hemp, Bool.not_false, Bool.true_eq_false, if_false,
          Bool.not_true, Bool.false_eq_true] at hc
        obtain rfl := Except.ok.inj hc
        exact ⟨by simp [validatedFieldsNonEmpty, hemp], rfl⟩
      · simp [truthyStr, hemp] at hc
  · intro c hc
    unfold parseRawCredentials at hc
    cases hot : raw.oauth_token with
    | none => rw [hot] at hc; exact absurd hc (by simp [truthyStr])
    | some t =>
      cases hots : raw.oauth_token_secret with
      | none => rw [hot, hots] at hc; exact absurd hc (by simp [truthyStr])
      | some ts =>
        rw [hot, hots] at hc
        cases hte : t.isEmpty
        · cases htse : ts.isEmpty
          · simp only [truthyStr, hte, htse, Bool.not_false, Bool.false_or,
              Bool.true_eq_false, if_false, Bool.false_eq_true] at hc
            obtain rfl := Except.ok.inj hc
            exact ⟨by simp [validatedFieldsNonEmpty, hte, htse], rfl⟩
          · simp [truthyStr, hte, htse] at hc
        · simp [truthyStr, hte] at hc
  · intro c hc
    unfold parseRawCredentials at hc
    cases htk : raw.token with
    | none => rw [htk] at hc; exact absurd hc (by simp [truthyStr])
    | some t =>
      rw [htk] at hc
      cases hemp : t.isEmpty
      · simp only [truthyStr, hemp, Bool.not_false, Bool.true_eq_false, if_false,
          Bool.not_true, Bool.false_eq_true] at hc
        obtain rfl := Except.ok.inj hc
        refine ⟨by simp [validatedFieldsNonEmpty, hemp], rfl, rfl⟩
      · simp [truthyStr, hemp] at hc
  · intro mode h2 h1 hcc
    cases mode <;> first
      | rfl
      | exact absurd rfl h2
      | exact absurd rfl h1
      | exact absurd rfl hcc

/-- Witness for C7 at a concrete raw response for each branch. -/
theorem parseRawCredentials_validates_witness :
    (validatedFieldsNonEmpty (.OAuth2 "tok" none none { access_token := some "tok" }) = true
      ∧ (AuthCredentials.OAuth2 "tok" none none { access_token := some "tok" }).typeOf
          = .OAuth2)
    ∧ parseRawCredentials 0 { access_token := some "tok" } .ApiKey
        = .error "unknown_credentials_type" :=
  ⟨(parseRawCredentials_validates 0 { access_token := some "tok" }).1
      (.OAuth2 "tok" none none { access_token := some "tok" }) rfl,
    (parseRawCredentials_validates 0 { access_token := some "tok" }).2.2.2
      .ApiKey (by decide) (by decide) (by decide)⟩

/-- Encrypting a connection preserves its `connection_id` column. -/
theorem encryptConnection_connection_id (key : String) (cipher : Cipher)
    (codec : CredentialsCodec) (c : Connection) :
    (encryptConnection key cipher codec c).connection_id = c.connection_id := by
  unfold encryptConnection
  split
  · rfl
  · rfl

/-- Encrypting a connection preserves its `provider_config_key` column. -/
theorem encryptConnection_provider_config_key (key : String) (cipher : Cipher)
    (codec : CredentialsCodec) (c : Connection) :
    (encryptConnection key cipher codec c).provider_config_key
      = c.provider_config_key := by
  unfold encryptConnection
  split
  · rfl
  · rfl

/-- Encrypting a connection preserves its `environment_id` column. -/
theorem encryptConnection_environment_id (key : String) (cipher : Cipher)
    (codec : CredentialsCodec) (c : Connection) :
    (encryptConnection key cipher codec c).environment_id = c.environment_id := by
  unfold encryptConnection
  split
  · rfl
  · rfl

/-- Every member of a list is bounded by its folded maximum. -/
theorem mem_le_foldr_max (l : List Nat) (x : Nat) (hx : x ∈ l) :
    x ≤ l.foldr max 0 := by
  induction l with
  | nil => cases hx
  | cons a as ih =>
    rcases List.mem_cons.mp hx with rfl | h
    · exact Nat.le_max_left _ _
    · exact le_trans (ih h) (Nat.le_max_right _ _)

/-- The fresh surrogate id is strictly larger than every id in the table. -/
theorem id_lt_freshId (db : List StoredRow) (r : StoredRow) (hr : r ∈ db) :
    r.id < freshId db :=
  Nat.lt_succ_of_le (mem_le_foldr_max _ _ (List.mem_map_of_mem (·.id) hr))

/-- A row-wise update that does not change a predicate does not change its
count. -/
theorem countP_map_preserving (l : List StoredRow) (F : StoredRow → StoredRow)
    (p : StoredRow → Bool) (h : ∀ r ∈ l, p (F r) = p r) :
    (l.map F).countP p = l.countP p := by
  induction l with
  | nil => rfl
  | cons a as ih =>
    simp only [List.map_cons, List.countP_cons, h a (List.mem_cons_self a as)]
    rw [ih]
    intro r hr
    exact h r (List.mem_cons_of_mem _ hr)

/-- C8: upsert semantics over the natural key.  Starting from a table with
no live row for the key, the first upsert inserts and reports `creation`,
the second updates in place and reports `override`; afterwards exactly one
live row carries the key and the table has not grown; and the existence
lookup never matches soft-deleted rows (a table whose rows are all deleted
yields no match). -/
theorem upsertConnection_upsert_semantics
    (key : String) (cipher : Cipher) (codec : CredentialsCodec) (configId : Nat)
    (db : List StoredRow) (cid pck : String) (envId : Nat)
    (creds creds2 : AuthCredentials) (cc cc2 : String) (md md2 : Option String)
    (h0 : liveMatchCount db cid pck envId = 0) :
    (upsertConnection key cipher codec configId db cid pck creds cc envId md).2
        = .creation
    ∧ (upsertConnection key cipher codec configId
          (upsertConnection key cipher codec configId db cid pck creds cc envId md).1
          cid pck creds2 cc2 envId md2).2 = .override
    ∧ liveMatchCount
          (upsertConnection key cipher codec configId
            (upsertConnection key cipher codec configId db cid pck creds cc envId md).1
            cid pck creds2 cc2 envId md2).1 cid pck envId = 1
    ∧ (upsertConnection key cipher codec configId
          (upsertConnection key cipher codec configId db cid pck creds cc envId md).1
          cid pck creds2 cc2 envId md2).1.length
        = (upsertConnection key cipher codec configId db cid pck creds cc envId md).1.length
    ∧ (∀ (dbAll : List StoredRow), (∀ r ∈ dbAll, r.deleted = true) →
        checkIfConnectionExists dbAll cid pck envId = none) := by
  have hnomatch : ∀ r ∈ db, ¬(rowMatches cid pck envId r = true) :=
    List.countP_eq_zero.mp h0
  have hfind : checkIfConnectionExists db cid pck envId = none := by
    unfold checkIfConnectionExists
    rw [List.find?_eq_none.mpr hnomatch]
    rfl
  have hup1 : upsertConnection key cipher codec configId db cid pck creds cc envId md
      = (db ++ [{ id := freshId db, deleted := false,
                  data := encryptConnection key cipher codec
                    { connection_id := cid, provider_config_key := pck,
                      environment_id := envId, config_id := configId,
                      credentials := creds, connection_config := cc,
                      metadata := md } }], .creation) := by
    unfold upsertConnection
    rw [hfind]
  set nr : StoredRow :=
    { id := freshId db, deleted := false,
      data := encryptConnection key cipher codec
        { connection_id := cid, provider_config_key := pck,
          environment_id := envId, config_id := configId,
          credentials := creds, connection_config := cc, metadata := md } }
    with hnr
  have hmatch : rowMatches cid pck envId nr = true := by
    rw [hnr]
    simp [rowMatches, encryptConnection_connection_id,
      encryptConnection_provider_config_key, encryptConnection_environment_id]
  have hfind1 : List.find? (rowMatches cid pck envId) (db ++ [nr]) = some nr := by
    rw [List.find?_append, List.find?_eq_none.mpr hnomatch]
    simp [hmatch]
  have hfind2 : checkIfConnectionExists (db ++ [nr]) cid pck envId
      = some (nr.id, nr.data.metadata) := by
    unfold checkIfConnectionExists
    rw [hfind1]
    rfl
  refine ⟨by rw [hup1], ?_, ?_, ?_, ?_⟩
  · rw [hup1]
    unfold upsertConnection
    rw [hfind2]
  · rw [hup1]
    unfold upsertConnection liveMatchCount
    rw [hfind2]
    rw [countP_map_preserving]
    · rw [List.countP_append]
      unfold liveMatchCount at h0
      rw [h0]
      simp [hmatch]
    · intro r hr
      rcases List.mem_append.mp hr with hdb | hone
      · have hlt := id_lt_freshId db r hdb
        have hid : nr.id = freshId db := by rw [hnr]
        have hne : (r.id == nr.id) = false := by
          simp only [beq_eq_false_iff_ne, ne_eq]
          omega
        simp [hne]
      · have hr1 : r = nr := by simpa using hone
        subst hr1
        by_cases hc : (nr.id == nr.id && nr.deleted == false) = true
        · rw [if_pos hc, hmatch]
          simp [rowMatches, encryptConnection_connection_id,
            encryptConnection_provider_config_key, encryptConnection_environment_id,
            hnr]
        · rw [if_neg hc]
  · rw [hup1]
    unfold upsertConnection
    rw [hfind2]
    simp
  · intro dbAll hall
    unfold checkIfConnectionExists
    rw [List.find?_eq_none.mpr]
    · rfl
    · intro r hr
      unfold rowMatches
      rw [hall r hr]
      simp

/-- Witness for C8 on an empty table with concrete arguments. -/
theorem upsertConnection_upsert_semantics_witness :
    (upsertConnection "" idCipher (constCodec sampleCreds) 7 [] "c1" "gh"
        sampleCreds "cfg" 1 none).2 = .creation
    ∧ (upsertConnection "" idCipher (constCodec sampleCreds) 7
          (upsertConnection "" idCipher (constCodec sampleCreds) 7 [] "c1" "gh"
            sampleCreds "cfg" 1 none).1 "c1" "gh" sampleCreds "cfg2" 1 none).2
        = .override :=
  ⟨(upsertConnection_upsert_semantics "" idCipher (constCodec sampleCreds) 7 []
      "c1" "gh" 1 sampleCreds sampleCreds "cfg" "cfg2" none none rfl).1,
    (upsertConnection_upsert_semantics "" idCipher (constCodec sampleCreds) 7 []
      "c1" "gh" 1 sampleCreds sampleCreds "cfg" "cfg2" none none rfl).2.1⟩

/-- A truthy optional string is not `none`. -/
theorem truthyStr_ne_none (o : Option String) (h : truthyStr o = true) : o ≠ none := by
  cases o
  · simp [truthyStr] at h
  · simp

/-- C9: the one-time encryption migration is idempotent.  With a freshly
set key over a database with no checkpoint row, one run encrypts exactly
the rows that do not already carry a truthy IV/tag pair (rows that do are
kept as they are, every resulting row carries an IV and tag, and the
update count equals the number of unenveloped rows), persists a
`(key hash, complete)` checkpoint, and a second run with the same key is a
no-op performing zero row updates. -/
theorem encryptDatabaseIfNeeded_idempotent (key : String) (hashKey : String → String)
    (cipher : Cipher) (codec : CredentialsCodec) (st stp : MigrationState) (n : Nat)
    (hkey : key.isEmpty = false) (hcfg : st.dbConfig = none)
    (hrun : encryptDatabaseIfNeeded key hashKey cipher codec st = .ok (stp, n)) :
    stp.dbConfig = some { encryption_key_hash := some (hashKey key),
                          encryption_complete := true }
    ∧ n = st.connections.countP (fun r => !hasEnvelope r)
    ∧ stp.connections.length = st.connections.length
    ∧ (∀ r ∈ st.connections, hasEnvelope r = true → r ∈ stp.connections)
    ∧ (∀ r ∈ stp.connections,
        r.data.credentials_iv ≠ none ∧ r.data.credentials_tag ≠ none)
    ∧ encryptDatabaseIfNeeded key hashKey cipher codec stp = .ok (stp, 0) := by
  have hcomp : encryptDatabaseIfNeeded key hashKey cipher codec st
      = .ok ({ dbConfig := some { encryption_key_hash := some (hashKey key),
                                  encryption_complete := true },
               connections := st.connections.map (fun r =>
                 if hasEnvelope r then r else encryptStoredRow key cipher codec r) },
             st.connections.countP (fun r => !hasEnvelope r)) := by
    unfold encryptDatabaseIfNeeded encryptDatabase
    rw [hcfg]
    simp [hkey]
  rw [hcomp] at hrun
  injection hrun with hpair
  injection hpair with hst hn
  subst hst
  subst hn
  refine ⟨rfl, rfl, by simp, ?_, ?_, ?_⟩
  · intro r hr he
    exact List.mem_map.mpr ⟨r, hr, by simp [he]⟩
  · intro r' hr'
    obtain ⟨r, hr, rfl⟩ := List.mem_map.mp hr'
    by_cases he : hasEnvelope r = true
    · rw [if_pos he]
      simp only [hasEnvelope, Bool.and_eq_true] at he
      exact ⟨truthyStr_ne_none _ he.1, truthyStr_ne_none _ he.2⟩
    · rw [if_neg he]
      have hse : shouldEncrypt key = true := by simp [shouldEncrypt, hkey]
      unfold encryptStoredRow
      rw [hse]
      simp
  · unfold encryptDatabaseIfNeeded
    simp [hkey]

/-- Witness for C9: a one-row cleartext table, key freshly set. -/
theorem encryptDatabaseIfNeeded_idempotent_witness :
    encryptDatabaseIfNeeded "k" (fun s => s) idCipher (constCodec sampleCreds)
      { dbConfig := some { encryption_key_hash := some "k", encryption_complete := true },
        connections := [
          { id := 1, deleted := false,
            data := { connection_id := "c1", provider_config_key := "gh",
                      environment_id := 1, config_id := 7,
                      credentials := .enc "payload", credentials_iv := some "iv",
                      credentials_tag := some "tag", connection_config := "cc",
                      metadata := none } }] }
      = .ok ({ dbConfig := some { encryption_key_hash := some "k",
                                  encryption_complete := true },
               connections := [
                 { id := 1, deleted := false,
                   data := { connection_id := "c1", provider_config_key := "gh",
                             environment_id := 1, config_id := 7,
                             credentials := .enc "payload", credentials_iv := some "iv",
                             credentials_tag := some "tag", connection_config := "cc",
                             metadata := none } }] }, 0) :=
  (encryptDatabaseIfNeeded_idempotent "k" (fun s => s) idCipher (constCodec sampleCreds)
    { dbConfig := none,
      connections := [
        { id := 1, deleted := false,
          data := { connection_id := "c1", provider_config_key := "gh",
                    environment_id := 1, config_id := 7,
                    credentials := .plain sampleCreds, credentials_iv := none,
                    credentials_tag := none, connection_config := "cc",
                    metadata := none } }] }
    { dbConfig := some { encryption_key_hash := some "k", encryption_complete := true },
      connections := [
        { id := 1, deleted := false,
          data := { connection_id := "c1", provider_config_key := "gh",
                    environment_id := 1, config_id := 7,
                    credentials := .enc "payload", credentials_iv := some "iv",
                    credentials_tag := some "tag", connection_config := "cc",
                    metadata := none } }] }
    1 rfl rfl rfl).2.2.2.2.2

/-- C5 counterexample: a flow whose template has `auth_mode = App` — an
auth mode different from `None` — with no oauth client id, client secret
or scopes configured does not terminate with `InvalidProviderConfig`: the
completeness check exempts `App`, the flow dispatches to the app handler, a
Session is persisted and a redirect URL is returned. -/
theorem oauthRequest_app_mode_skips_config_check :
    oauthRequest (fun _ _ => false) (fun u _ => u) (fun _ => [])
        { connection_id := some "c1", providerConfigKey := some "gh",
          hmacEnabled := false, hmac := none, hmacValid := true,
          config := some { provider := "github-app", oauth_client_id := none,
                           oauth_client_secret := none, oauth_scopes := none,
                           app_link := some "https://l" },
          template := some { auth_mode := .App, authorization_url := "https://a",
                             token_url := "https://t", authorization_params := [],
                             token_params := none, disable_pkce := false,
                             scope_separator := none,
                             authorization_url_replacements := [] },
          userScope := none, connectionConfig := [], authorizationParams := [],
          overrideClientId := none, overrideClientSecret := none,
          callbackUrl := "cb", sessionId := "sid", codeVerifier := "v",
          oauth1RequestTokenSecret := none }
      = .appFlow (.redirect "https://a?state=sid")
    ∧ (OAuthRequestOutcome.appFlow (.redirect "https://a?state=sid")).sessionPersisted
        = true
    ∧ OAuthRequestOutcome.appFlow (.redirect "https://a?state=sid")
        ≠ .errInvalidProviderConfig := by
  refine ⟨rfl, rfl, by decide⟩

/-- C5 amended: in `beginAuthorization`, for every loaded provider config
and template whose `auth_mode` is different from `App` (the source exempts
`App`, not `None`), if the oauth client id, client secret or scopes is
absent after applying the request overrides, the flow terminates with
`InvalidProviderConfig` and no Session is persisted and no redirect URL is
returned. -/
theorem oauthRequest_invalid_provider_config
    (missesCheck : String → List (String × String) → Bool)
    (interpolate : String → List (String × String) → String)
    (hash : String → List Nat) (input : OAuthRequestInput)
    (config0 : ProviderConfigModel) (template : ProviderTemplate)
    (hcid : input.connection_id ≠ none)
    (hpck : input.providerConfigKey ≠ none)
    (hhm : (input.hmacEnabled && !truthyStr input.hmac) = false)
    (hhv : (input.hmacEnabled && !input.hmacValid) = false)
    (hcfg : input.config = some config0)
    (htm : input.template = some template)
    (hmode : template.auth_mode ≠ .App)
    (hmiss : (applyOverrides input config0).oauth_client_id = none
      ∨ (applyOverrides input config0).oauth_client_secret = none
      ∨ (applyOverrides input config0).oauth_scopes = none) :
    oauthRequest missesCheck interpolate hash input = .errInvalidProviderConfig
    ∧ (oauthRequest missesCheck interpolate hash input).sessionPersisted = false := by
  have hc1 : (input.connection_id == none) = false := by
    cases h : input.connection_id
    · exact absurd h hcid
    · rfl
  have hc2 : (input.providerConfigKey == none) = false := by
    cases h : input.providerConfigKey
    · exact absurd h hpck
    · rfl
  have hm : (template.auth_mode != AuthModes.App) = true := by
    simp [bne_iff_ne, hmode]
  have hcheck : (template.auth_mode != AuthModes.App &&
      ((applyOverrides input config0).oauth_client_id == none
        || (applyOverrides input config0).oauth_client_secret == none
        || (applyOverrides input config0).oauth_scopes == none)) = true := by
    rcases hmiss with h | h | h <;> simp [hm, h]
  have hmain : oauthRequest missesCheck interpolate hash input
      = .errInvalidProviderConfig := by
    unfold oauthRequest
    rw [hcfg, htm]
    simp only [hc1, hc2, hhm, hhv, hcheck, Bool.false_eq_true, if_false, if_true]
  exact ⟨hmain, by rw [hmain]; rfl⟩

/-- Witness for C5 at a concrete OAuth2 template with a missing client
secret. -/
theorem oauthRequest_invalid_provider_config_witness :
    oauthRequest (fun _ _ => false) (fun u _ => u) (fun _ => [])
        { connection_id := some "c1", providerConfigKey := some "gh",
          hmacEnabled := false, hmac := none, hmacValid := true,
          config := some { provider := "github", oauth_client_id := some "cid",
                           oauth_client_secret := none, oauth_scopes := some "a,b",
                           app_link := none },
          template := some { auth_mode := .OAuth2, authorization_url := "https://a",
                             token_url := "https://t", authorization_params := [],
                             token_params := none, disable_pkce := false,
                             scope_separator := none,
                             authorization_url_replacements := [] },
          userScope := none, connectionConfig := [], authorizationParams := [],
          overrideClientId := none, overrideClientSecret := none,
          callbackUrl := "cb", sessionId := "sid", codeVerifier := "v",
          oauth1RequestTokenSecret := none }
      = .errInvalidProviderConfig :=
  (oauthRequest_invalid_provider_config (fun _ _ => false) (fun u _ => u) (fun _ => [])
    { connection_id := some "c1", providerConfigKey := some "gh",
      hmacEnabled := false, hmac := none, hmacValid := true,
      config := some { provider := "github", oauth_client_id := some "cid",
                       oauth_client_secret := none, oauth_scopes := some "a,b",
                       app_link := none },
      template := some { auth_mode := .OAuth2, authorization_url := "https://a",
                         token_url := "https://t", authorization_params := [],
                         token_params := none, disable_pkce := false,
                         scope_separator := none,
                         authorization_url_replacements := [] },
      userScope := none, connectionConfig := [], authorizationParams := [],
      overrideClientId := none, overrideClientSecret := none,
      callbackUrl := "cb", sessionId := "sid", codeVerifier := "v",
      oauth1RequestTokenSecret := none }
    { provider := "github", oauth_client_id := some "cid",
      oauth_client_secret := none, oauth_scopes := some "a,b", app_link := none }
    { auth_mode := .OAuth2, authorization_url := "https://a",
      token_url := "https://t", authorization_params := [],
      token_params := none, disable_pkce := false, scope_separator := none,
      authorization_url_replacements := [] }
    (by decide) (by decide) rfl rfl rfl rfl (by decide) (Or.inr (Or.inl rfl))).1

/-- Sextets of mod-256 bytes are six-bit values. -/
theorem b64Sextets_lt : (l : List Nat) → (∀ x ∈ l, x < 256) →
    ∀ y ∈ b64Sextets l, y < 64
  | [], _, y, hy => by simp [b64Sextets] at hy
  | [a], h, y, hy => by
    have ha := h a (by simp)
    simp [b64Sextets] at hy
    rcases hy with rfl | rfl <;> omega
  | [a, b], h, y, hy => by
    have ha := h a (by simp)
    have hb := h b (by simp)
    simp [b64Sextets] at hy
    rcases hy with rfl | rfl | rfl <;> omega
  | a :: b :: c :: rest, h, y, hy => by
    have ha := h a (by simp)
    have hb := h b (by simp)
    have hc := h c (by simp)
    simp only [b64Sextets, List.cons_append, List.nil_append, List.mem_cons] at hy
    rcases hy with rfl | rfl | rfl | rfl | hmem
    · omega
    · omega
    · omega
    · omega
    · exact b64Sextets_lt rest
        (fun x hx => h x (by simp [List.mem_cons] at hx ⊢; tauto)) y hmem

/-- Standard alphabet characters map to the base64url alphabet under the
two substitutions. -/
theorem substChar_std_eq_url :
    ∀ i, i < 64 → substSlashChar (substPlusChar (stdAlphabet.getD i 'A'))
      = urlAlphabet.getD i 'A' := by decide

/-- No base64url alphabet character is the padding character. -/
theorem urlAlphabet_ne_eq : ∀ i, i < 64 → urlAlphabet.getD i 'A' ≠ '=' := by decide

/-- Dropping leading padding from a padding run. -/
theorem dropWhile_replicate_append (n : Nat) (ys : List Char) :
    (List.replicate n '=' ++ ys).dropWhile (fun c => c == '=')
      = ys.dropWhile (fun c => c == '=') := by
  induction n with
  | zero => rfl
  | succ m ih => simp [List.replicate_succ, List.dropWhile_cons, ih]

/-- `dropWhile` is the identity when the head fails the predicate. -/
theorem dropWhile_eq_self_of_not_eq (ys : List Char)
    (h : ∀ c ∈ ys, (c == '=') = false) :
    ys.dropWhile (fun c => c == '=') = ys := by
  cases ys with
  | nil => rfl
  | cons c cs => simp [List.dropWhile_cons, h c (List.mem_cons_self c cs)]

/-- Stripping the trailing run of `=` recovers a padding-free prefix. -/
theorem stripTrailingEq_append_replicate (xs : List Char) (n : Nat)
    (h : ∀ c ∈ xs, (c == '=') = false) :
    stripTrailingEq (xs ++ List.replicate n '=') = xs := by
  unfold stripTrailingEq
  rw [List.reverse_append, List.reverse_replicate, dropWhile_replicate_append,
    dropWhile_eq_self_of_not_eq _ (fun c hc => h c (List.mem_reverse.mp hc)),
    List.reverse_reverse]

/-- The source's replacement chain over padded standard base64 computes
exactly unpadded base64url: for every digest, the `code_challenge` value
equals `BASE64URL-ENCODE(digest)` with no padding. -/
theorem codeChallenge_eq_base64UrlNoPad (hash : String → List Nat)
    (verifier : String) :
    codeChallenge hash verifier = String.mk (base64UrlNoPad (hash verifier)) := by
  have hlt : ∀ y ∈ b64Sextets ((hash verifier).map (· % 256)), y < 64 :=
    b64Sextets_lt _ (by
      intro x hx
      obtain ⟨b, _, rfl⟩ := List.mem_map.mp hx
      exact Nat.mod_lt _ (by norm_num))
  unfold codeChallenge
  congr 1
  unfold base64Std base64UrlNoPad b64EncodeWith substPlus substSlash
  rw [List.map_append, List.map_replicate]
  have h1 : substPlusChar '=' = '=' := rfl
  rw [h1, List.map_append, List.map_replicate]
  have h2 : substSlashChar '=' = '=' := rfl
  rw [h2, List.map_map, List.map_map]
  rw [stripTrailingEq_append_replicate]
  · refine List.map_congr_left ?_
    intro i hi
    exact substChar_std_eq_url i (hlt i hi)
  · intro ch hch
    obtain ⟨i, hi, rfl⟩ := List.mem_map.mp hch
    have := substChar_std_eq_url i (hlt i hi)
    simp only [Function.comp_apply]
    rw [this]
    exact beq_eq_false_iff_ne.mpr (urlAlphabet_ne_eq i (hlt i hi))

/-- Filtering by a predicate implied by the first filter is absorbed. -/
theorem find?_filter_of_imp (l : List (String × String))
    (p q : String × String → Bool) (h : ∀ x, p x = true → q x = true) :
    (l.filter q).find? p = l.find? p := by
  induction l with
  | nil => rfl
  | cons a as ih =>
    by_cases hp : p a = true
    · rw [List.filter_cons, if_pos (h a hp)]
      simp [List.find?_cons, hp, ih]
    · have hp' : p a = false := by
        cases hpa : p a
        · rfl
        · exact absurd hpa hp
      cases hq : q a
      · rw [List.filter_cons, hq]
        simp [List.find?_cons, hp', ih]
      · rw [List.filter_cons, if_pos hq]
        simp [List.find?_cons, hp', ih]

/-- `obj[k] = v` makes `obj[k]` read back `v`. -/
theorem lookupParam_setParam_self (m : List (String × String)) (k v : String) :
    lookupParam (setParam m k v) k = some v := by
  unfold lookupParam setParam
  rw [List.find?_append]
  have hleft : (m.filter (fun p => p.1 != k)).find? (fun p => p.1 == k) = none := by
    rw [List.find?_eq_none]
    intro x hx
    have hq := List.of_mem_filter hx
    simp only [bne_iff_ne, ne_eq, decide_eq_true_eq] at hq
    simp [hq]
  rw [hleft]
  simp [List.find?_cons]

/-- Assigning another key leaves a lookup unchanged. -/
theorem lookupParam_setParam_other (m : List (String × String)) (k kp v : String)
    (h : k ≠ kp) :
    lookupParam (setParam m kp v) k = lookupParam m k := by
  unfold lookupParam setParam
  rw [List.find?_append, find?_filter_of_imp _ _ _ (by
    intro x hx
    have hx' : x.1 = k := by simpa using hx
    simp [bne_iff_ne, hx']
    exact h)]
  have hkpk : ((kp, v).1 == k) = false := by
    simp only [beq_eq_false_iff_ne, ne_eq]
    exact fun hh => h hh.symm
  cases hf : m.find? (fun p => p.1 == k) with
  | some r => rfl
  | none => simp [List.find?_cons, hkpk]

/-- Deleting another key leaves a lookup unchanged. -/
theorem lookupParam_removeParam_other (m : List (String × String)) (k kp : String)
    (h : k ≠ kp) :
    lookupParam (removeParam m kp) k = lookupParam m k := by
  unfold lookupParam removeParam
  rw [find?_filter_of_imp _ _ _ (by
    intro x hx
    have hx' : x.1 = k := by simpa using hx
    simp [bne_iff_ne, hx']
    exact h)]

/-- The key-filtered entries of a key-removal at another key. -/
theorem filter_key_filter_ne (m : List (String × String)) (k kp : String)
    (h : kp ≠ k) :
    (m.filter (fun p => p.1 != kp)).filter (fun p => p.1 == k)
      = m.filter (fun p => p.1 == k) := by
  rw [List.filter_filter]
  refine List.filter_congr ?_
  intro a _
  cases hak : (a.1 == k)
  · simp
  · have hak' : a.1 = k := by simpa using hak
    have hne : (a.1 != kp) = true := by
      simp only [bne_iff_ne, ne_eq, hak']
      exact fun hh => h hh.symm
    simp [hne]

/-- After `obj[k] = v`, the entries with key `k` are exactly `[(k, v)]`. -/
theorem filter_setParam_self (m : List (String × String)) (k v : String) :
    (setParam m k v).filter (fun p => p.1 == k) = [(k, v)] := by
  unfold setParam
  rw [List.filter_append]
  have h1 : (m.filter (fun p => p.1 != k)).filter (fun p => p.1 == k) = [] := by
    rw [List.filter_eq_nil_iff]
    intro a ha
    have := List.of_mem_filter ha
    simp only [bne_iff_ne, ne_eq, decide_eq_true_eq] at this
    simp [this]
  rw [h1]
  simp

/-- Assigning another key preserves the entries with key `k`. -/
theorem filter_setParam_other (m : List (String × String)) (k kp v : String)
    (h : kp ≠ k) :
    (setParam m kp v).filter (fun p => p.1 == k)
      = m.filter (fun p => p.1 == k) := by
  unfold setParam
  rw [List.filter_append, filter_key_filter_ne _ _ _ h]
  have h2 : [(kp, v)].filter (fun p => p.1 == k) = [] := by
    simp [beq_eq_false_iff_ne.mpr h]
  rw [h2, List.append_nil]

/-- Deleting another key preserves the entries with key `k`. -/
theorem filter_removeParam_other (m : List (String × String)) (k kp : String)
    (h : kp ≠ k) :
    (removeParam m kp).filter (fun p => p.1 == k)
      = m.filter (fun p => p.1 == k) := by
  unfold removeParam
  exact filter_key_filter_ne _ _ _ h

/-- Request-supplied parameters that do not mention key `k` preserve the
entries with key `k`. -/
theorem filter_requestFold (ps : List (String × Option String))
    (m : List (String × String)) (k : String) (h : ∀ q ∈ ps, q.1 ≠ k) :
    ((ps.foldl (fun m kv => match kv.2 with
        | some v => setParam m kv.1 v
        | none => removeParam m kv.1) m).filter (fun p => p.1 == k))
      = m.filter (fun p => p.1 == k) := by
  induction ps generalizing m with
  | nil => rfl
  | cons a as ih =>
    rw [List.foldl_cons, ih _ (fun q hq => h q (List.mem_cons_of_mem _ hq))]
    have ha := h a (List.mem_cons_self _ _)
    cases h2 : a.2 with
    | some v =>
      simp only [h2]
      exact filter_setParam_other _ _ _ _ ha
    | none =>
      simp only [h2]
      exact filter_removeParam_other _ _ _ ha

/-- Folding assignments none of which mention key `k` preserves its
lookup. -/
theorem lookupParam_foldl_setParam_of_no_key (l : List (String × String))
    (base : List (String × String)) (k : String)
    (h : ∀ p ∈ l, (p.1 == k) = false) :
    lookupParam (l.foldl (fun m kv => setParam m kv.1 kv.2) base) k
      = lookupParam base k := by
  induction l generalizing base with
  | nil => rfl
  | cons a as ih =>
    rw [List.foldl_cons, ih _ (fun p hp => h p (List.mem_cons_of_mem _ hp))]
    refine lookupParam_setParam_other _ _ _ _ ?_
    have := h a (List.mem_cons_self _ _)
    simp only [beq_eq_false_iff_ne, ne_eq] at this
    exact fun hh => this hh.symm

/-- Folding a map with exactly one entry of key `k` into a base makes a
lookup of `k` return that entry's value. -/
theorem lookupParam_foldl_setParam_of_unique (l : List (String × String))
    (base : List (String × String)) (k v : String)
    (h : l.filter (fun p => p.1 == k) = [(k, v)]) :
    lookupParam (l.foldl (fun m kv => setParam m kv.1 kv.2) base) k = some v := by
  induction l generalizing base with
  | nil => simp at h
  | cons a as ih =>
    rw [List.foldl_cons]
    by_cases hak : (a.1 == k) = true
    · rw [List.filter_cons, if_pos hak] at h
      have ha : a = (k, v) := (List.cons.inj h).1
      have hrest : as.filter (fun p => p.1 == k) = [] := (List.cons.inj h).2
      rw [lookupParam_foldl_setParam_of_no_key as _ k (by
        intro p hp
        have := List.filter_eq_nil_iff.mp hrest p hp
        cases hpa : (p.1 == k)
        · rfl
        · exact absurd hpa this)]
      rw [ha]
      exact lookupParam_setParam_self _ _ _
    · have hak' : (a.1 == k) = false := by
        cases hpa : (a.1 == k)
        · rfl
        · exact absurd hpa hak
      rw [List.filter_cons, hak'] at h
      simp only [Bool.false_eq_true, if_false] at h
      exact ih _ h

/-- The merged auth params carry exactly one `code_challenge` entry: the
computed PKCE challenge. -/
theorem mergedAuthParams_filter_challenge (hash : String → List Nat)
    (template : ProviderTemplate) (providerConfig : ProviderConfigModel)
    (session : OAuthSession) (authorizationParams : List (String × Option String))
    (userScope : Option String)
    (hpkce : template.disable_pkce = false)
    (hnocc : ∀ q ∈ authorizationParams, q.1 ≠ "code_challenge") :
    (mergedAuthParams hash template providerConfig session authorizationParams
        userScope).filter (fun p => p.1 == "code_challenge")
      = [("code_challenge", codeChallenge hash session.codeVerifier)] := by
  unfold mergedAuthParams
  rw [hpkce]
  simp only [Bool.not_false, if_true]
  rw [filter_requestFold _ _ _ hnocc]
  by_cases hsl : (providerConfig.provider == "slack" && truthyStr userScope) = true
  · rw [if_pos hsl, filter_setParam_other _ _ _ _ (by decide),
      filter_setParam_other _ _ _ _ (by decide), filter_setParam_self]
  · rw [if_neg hsl, filter_setParam_other _ _ _ _ (by decide), filter_setParam_self]

/-- The merged auth params carry exactly one `code_challenge_method`
entry: `S256`. -/
theorem mergedAuthParams_filter_method (hash : String → List Nat)
    (template : ProviderTemplate) (providerConfig : ProviderConfigModel)
    (session : OAuthSession) (authorizationParams : List (String × Option String))
    (userScope : Option String)
    (hpkce : template.disable_pkce = false)
    (hnoccm : ∀ q ∈ authorizationParams, q.1 ≠ "code_challenge_method") :
    (mergedAuthParams hash template providerConfig session authorizationParams
        userScope).filter (fun p => p.1 == "code_challenge_method")
      = [("code_challenge_method", "S256")] := by
  unfold mergedAuthParams
  rw [hpkce]
  simp only [Bool.not_false, if_true]
  rw [filter_requestFold _ _ _ hnoccm]
  by_cases hsl : (providerConfig.provider == "slack" && truthyStr userScope) = true
  · rw [if_pos hsl, filter_setParam_other _ _ _ _ (by decide), filter_setParam_self]
  · rw [if_neg hsl, filter_setParam_self]

/-- C3 counterexample: a request-supplied `authorization_params` entry for
`code_challenge` takes precedence over the computed PKCE challenge in the
merge (oauth.controller.ts line 625), so the `code_challenge` embedded in
the returned authorization URL is the attacker-chosen value, not
`base64url(sha256(session.codeVerifier))`, even though the template has
PKCE enabled. -/
theorem oauth2Request_code_challenge_override :
    oauth2Request (fun _ _ => false) (fun _ => [])
        ⟨.OAuth2, "https://a", "https://t", [], none, false, none, []⟩
        ⟨"github", some "id", some "sec", none, none⟩
        ⟨"gh", "github", "c1", "cb", .OAuth2, "v", "sid", [], 1, none, none⟩
        [] [("code_challenge", some "evil")] "cb" none
      = .redirect (authorizeUrlParams (fun _ => [])
          ⟨.OAuth2, "https://a", "https://t", [], none, false, none, []⟩
          ⟨"github", some "id", some "sec", none, none⟩
          ⟨"gh", "github", "c1", "cb", .OAuth2, "v", "sid", [], 1, none, none⟩
          [("code_challenge", some "evil")] "cb" none) []
    ∧ lookupParam (authorizeUrlParams (fun _ => [])
          ⟨.OAuth2, "https://a", "https://t", [], none, false, none, []⟩
          ⟨"github", some "id", some "sec", none, none⟩
          ⟨"gh", "github", "c1", "cb", .OAuth2, "v", "sid", [], 1, none, none⟩
          [("code_challenge", some "evil")] "cb" none) "code_challenge"
        = some "evil"
    ∧ some "evil"
        ≠ some (String.mk (base64UrlNoPad ((fun (_ : String) => ([] : List Nat)) "v"))) := by
  refine ⟨rfl, rfl, by decide⟩

/-- C3 amended: for every OAuth2 flow whose template does not set
`disable_pkce`, whose interpolation and grant-type gates pass, and whose
request-supplied `authorization_params` do not override `code_challenge`
or `code_challenge_method` (request parameters win in the merge), the
authorization URL parameters returned by `oauth2Request` carry
`code_challenge` equal to the base64url encoding, with no padding, of the
SHA-256 digest of `session.codeVerifier`, accompanied by
`code_challenge_method = S256`. -/
theorem oauth2Request_pkce_code_challenge
    (missesCheck : String → List (String × String) → Bool)
    (hash : String → List Nat) (template : ProviderTemplate)
    (providerConfig : ProviderConfigModel) (session : OAuthSession)
    (connectionConfig : List (String × String))
    (authorizationParams : List (String × Option String))
    (callbackUrl : String) (userScope : Option String)
    (hpkce : template.disable_pkce = false)
    (hm1 : missesCheck template.authorization_url connectionConfig = false)
    (hm2 : missesCheck template.token_url connectionConfig = false)
    (hgrant : (template.token_params == none
      || (template.token_params.bind (·.grant_type)) == none
      || (template.token_params.bind (·.grant_type)) == some "authorization_code")
        = true)
    (hnocc : ∀ q ∈ authorizationParams, q.1 ≠ "code_challenge")
    (hnoccm : ∀ q ∈ authorizationParams, q.1 ≠ "code_challenge_method") :
    oauth2Request missesCheck hash template providerConfig session connectionConfig
        authorizationParams callbackUrl userScope
      = .redirect (authorizeUrlParams hash template providerConfig session
          authorizationParams callbackUrl userScope)
          template.authorization_url_replacements
    ∧ lookupParam (authorizeUrlParams hash template providerConfig session
          authorizationParams callbackUrl userScope) "code_challenge"
        = some (String.mk (base64UrlNoPad (hash session.codeVerifier)))
    ∧ lookupParam (authorizeUrlParams hash template providerConfig session
          authorizationParams callbackUrl userScope) "code_challenge_method"
        = some "S256" := by
  refine ⟨?_, ?_, ?_⟩
  · simp [oauth2Request, hm1, hm2, hgrant]
  · unfold authorizeUrlParams
    rw [lookupParam_foldl_setParam_of_unique _ _ _ _
      (mergedAuthParams_filter_challenge hash template providerConfig session
        authorizationParams userScope hpkce hnocc)]
    rw [codeChallenge_eq_base64UrlNoPad]
  · unfold authorizeUrlParams
    rw [lookupParam_foldl_setParam_of_unique _ _ _ _
      (mergedAuthParams_filter_method hash template providerConfig session
        authorizationParams userScope hpkce hnoccm)]

/-- Witness for C3 at a concrete digest and session. -/
theorem oauth2Request_pkce_code_challenge_witness :
    lookupParam (authorizeUrlParams (fun _ => [1, 2, 3])
          ⟨.OAuth2, "https://a", "https://t", [], none, false, none, []⟩
          ⟨"github", some "id", some "sec", none, none⟩
          ⟨"gh", "github", "c1", "cb", .OAuth2, "v", "sid", [], 1, none, none⟩
          [] "cb" none) "code_challenge"
        = some (String.mk (base64UrlNoPad [1, 2, 3]))
    ∧ lookupParam (authorizeUrlParams (fun _ => [1, 2, 3])
          ⟨.OAuth2, "https://a", "https://t", [], none, false, none, []⟩
          ⟨"github", some "id", some "sec", none, none⟩
          ⟨"gh", "github", "c1", "cb", .OAuth2, "v", "sid", [], 1, none, none⟩
          [] "cb" none) "code_challenge_method"
        = some "S256" :=
  ⟨(oauth2Request_pkce_code_challenge (fun _ _ => false) (fun _ => [1, 2, 3])
      ⟨.OAuth2, "https://a", "https://t", [], none, false, none, []⟩
      ⟨"github", some "id", some "sec", none, none⟩
      ⟨"gh", "github", "c1", "cb", .OAuth2, "v", "sid", [], 1, none, none⟩
      [] [] "cb" none rfl rfl rfl rfl (by simp) (by simp)).2.1,
    (oauth2Request_pkce_code_challenge (fun _ _ => false) (fun _ => [1, 2, 3])
      ⟨.OAuth2, "https://a", "https://t", [], none, false, none, []⟩
      ⟨"github", some "id", some "sec", none, none⟩
      ⟨"gh", "github", "c1", "cb", .OAuth2, "v", "sid", [], 1, none, none⟩
      [] [] "cb" none rfl rfl rfl rfl (by simp) (by simp)).2.2⟩

end Nango
